import Mathlib

/-!
Verification of the win-lsmcp LSP client runtime and symbol index.

The definitions below are shallow embeddings of the TypeScript sources:

* `src/src/lsp/lspClient.ts` — framed transport codec (`processBuffer`,
  `sendMessage`), message handling (`handleMessage`), request timeouts
  (`sendRequest`), and the document session (`openDocument`,
  `closeDocument`, `isDocumentOpen`);
* `src/src/lsp/client/lspOperations.ts` — rename pipeline
  (`performRenameAtPosition`) and the transient-document lifecycles;
* `src/unnamed/part_003` — `handleGetSignatureHelp` document lifecycle;
* `src/src/tools/lsp/references.ts` — `findReferencesWithLSP` lifecycle;
* `src/packages/code-indexer/src/symbolIndex.ts` — `clearFileFromIndices`,
  `removeFileFromIndex`, `positionInRange`, `getSymbolAtPosition`,
  `querySymbols`.

JavaScript strings are modelled as lists of UTF-16 code units
(`JSStr := List Nat`) where byte-vs-character distinctions matter
(the transport codec); elsewhere Lean `String` is used. JS `Map`s and
`Set`s are modelled as association lists / lists with the corresponding
update semantics.
-/

namespace Lsmcp

/-! ## JS string helpers -/

/-- Substring test, modelling JS `String.prototype.includes` on char lists. -/
def listStartsWith : List Char → List Char → Bool
  | _, [] => true
  | [], _ :: _ => false
  | a :: s, b :: t => a == b && listStartsWith s t

/-- `listContainsSub s sub` is true iff `sub` occurs contiguously in `s`. -/
def listContainsSub : List Char → List Char → Bool
  | [], sub => listStartsWith [] sub
  | c :: t, sub =>
    if listStartsWith (c :: t) sub then true
    else listContainsSub t sub

/-- JS `haystack.includes(needle)` on Lean strings. -/
def strIncludes (s sub : String) : Bool :=
  listContainsSub s.toList sub.toList

/-! ## C1 — Framed transport codec (`lspClient.ts` lines 151–239)

JS strings are sequences of UTF-16 code units; `Buffer.byteLength(s)`
counts the bytes of the UTF-8 encoding.  `JSStr` models the former,
`utf8ByteLength` the latter. -/

/-- A JavaScript string: a list of UTF-16 code units. -/
abbrev JSStr := List Nat

/-- UTF-8 byte length of a UTF-16 code-unit sequence, as computed by
Node's `Buffer.byteLength(s, "utf8")`: ASCII → 1 byte, up to U+07FF → 2,
other BMP units → 3, a surrogate pair → 4 (a lone surrogate encodes as
U+FFFD, 3 bytes). -/
def utf8ByteLength : JSStr → Nat
  | [] => 0
  | [c] => if c < 0x80 then 1 else if c < 0x800 then 2 else 3
  | c :: low :: rest =>
    if c < 0x80 then 1 + utf8ByteLength (low :: rest)
    else if c < 0x800 then 2 + utf8ByteLength (low :: rest)
    else if 0xD800 ≤ c ∧ c ≤ 0xDBFF then
      if 0xDC00 ≤ low ∧ low ≤ 0xDFFF then 4 + utf8ByteLength rest
      else 3 + utf8ByteLength (low :: rest)
    else 3 + utf8ByteLength (low :: rest)

/-- Encode a Lean `Char` as UTF-16 code units (JS string element(s)). -/
def unitsOfChar (c : Char) : List Nat :=
  if c.toNat < 0x10000 then [c.toNat]
  else
    [0xD800 + (c.toNat - 0x10000) / 0x400, 0xDC00 + (c.toNat - 0x10000) % 0x400]

/-- View a Lean string as a JS string (UTF-16 code units). -/
def jsStrOfString (s : String) : JSStr :=
  s.toList.flatMap unitsOfChar

/-- Index of the first occurrence of `pat` in `s` (JS `String.indexOf`). -/
def jsIndexOfAux (pat : JSStr) : JSStr → Nat → Option Nat
  | [], i => if pat.isPrefixOf [] then some i else none
  | c :: t, i =>
    if pat.isPrefixOf (c :: t) then some i
    else jsIndexOfAux pat t (i + 1)

def jsIndexOf (s pat : JSStr) : Option Nat :=
  jsIndexOfAux pat s 0

/-- `"\r\n\r\n"` as code units. -/
def crlfcrlf : JSStr := [13, 10, 13, 10]

def isDigitUnit (c : Nat) : Bool := 48 ≤ c && c ≤ 57

/-- Value of a maximal leading digit run, if nonempty: models the capture
of the `\d+` group. -/
def takeDigits : JSStr → Nat → Nat
  | c :: rest, acc => if isDigitUnit c then takeDigits rest (acc * 10 + (c - 48)) else acc
  | [], acc => acc

def leadingDigits : JSStr → Nat
  | s => takeDigits s 0

def hasLeadingDigit : JSStr → Bool
  | c :: _ => isDigitUnit c
  | [] => false

/-- `header.match(/Content-Length: (\d+)/)`: find the first position where
the literal `"Content-Length: "` is followed by at least one digit and
return the value of the maximal digit run. -/
def parseContentLength : JSStr → Option Nat
  | [] => none
  | c :: t =>
    let lit := jsStrOfString "Content-Length: "
    if lit.isPrefixOf (c :: t) then
      let rest := (c :: t).drop lit.length
      if hasLeadingDigit rest then some (leadingDigits rest)
      else parseContentLength t
    else parseContentLength t

/-- Reader-side state of the codec: `buffer` is the accumulated JS string,
`contentLength` models the `-1` sentinel with `none`. -/
structure ReaderState where
  buffer : JSStr
  contentLength : Option Nat
deriving Repr, DecidableEq

/-- One run of `processBuffer` (lspClient.ts lines 151–188), with explicit
fuel for the `while` loop; every iteration either returns or consumes
header/body prefixes, so `2 * buffer.length + 2` fuel is always enough.
Returns the sliced message bodies (delivery to `handleMessage` is modelled
at the framing level: bodies are returned as-is) and the final state. -/
def processBufferFuel : Nat → ReaderState → List JSStr × ReaderState
  | 0, st => ([], st)
  | fuel + 1, st =>
    if st.buffer.isEmpty then ([], st)
    else
      match st.contentLength with
      | none =>
        match jsIndexOf st.buffer crlfcrlf with
        | none => ([], st)
        | some headerEnd =>
          let header := st.buffer.take headerEnd
          let rest := st.buffer.drop (headerEnd + 4)
          match parseContentLength header with
          | none => processBufferFuel fuel { buffer := rest, contentLength := none }
          | some n => processBufferFuel fuel { buffer := rest, contentLength := some n }
      | some n =>
        if st.buffer.length < n then ([], st)
        else
          let body := st.buffer.take n
          let rest := st.buffer.drop n
          let out := processBufferFuel fuel { buffer := rest, contentLength := none }
          (body :: out.1, out.2)

def processBuffer (st : ReaderState) : List JSStr × ReaderState :=
  processBufferFuel (2 * st.buffer.length + 2) st

/-- Writer side (`sendMessage`, lspClient.ts lines 222–239): the frame is
`"Content-Length: " ++ N ++ "\r\n\r\n" ++ content` where `N` is
`Buffer.byteLength(content)` — the UTF-8 **byte** count. -/
def frameMessage (content : JSStr) : JSStr :=
  jsStrOfString "Content-Length: " ++ jsStrOfString (Nat.repr (utf8ByteLength content))
    ++ crlfcrlf ++ content

/-- Feeding one complete written frame to a fresh reader. -/
def roundTrip (content : JSStr) : List JSStr × ReaderState :=
  processBuffer { buffer := frameMessage content, contentLength := none }

/-- The serialized JSON of a message containing a non-ASCII character:
`{"jsonrpc":"2.0","method":"é"}` — 30 UTF-16 units, 31 UTF-8 bytes. -/
def nonAsciiContent : JSStr := jsStrOfString "\x7b\"jsonrpc\":\"2.0\",\"method\":\"é\"\x7d"

/-! ## Client state (`lspClient.ts` lines 135–486)

`LSPClientState` projected to the fields the claims are about:
`process` (whether `state.process` is non-null), the pending
request ids of `responseHandlers`, the `diagnostics` map, the
`openDocuments` set and the stream of emitted notifications.
`Option`-valued operations model JS exceptions (`none` = throw). -/

/-- A diagnostic as it arrives in `publishDiagnostics` params: the `range`
field may be absent (JS `undefined`). -/
structure JSDiag where
  range : Option (Nat × Nat × Nat × Nat)  -- (start.line, start.character, end.line, end.character)
  severity : Option Nat
  message : String
deriving Repr, DecidableEq

/-- An element of the `params.diagnostics` array; `none` models `null`. -/
abbrev JSDiagItem := Option JSDiag

/-- `(d) => d && d.range` — the filter in `handleMessage` (line 210). -/
def diagHasRange (d : JSDiagItem) : Bool :=
  match d with
  | none => false
  | some o => o.range.isSome

/-- Notifications written to the server, projected to kind and URI. -/
inductive Notif where
  | didOpen (uri : String)
  | didClose (uri : String)
deriving Repr, DecidableEq

structure ClientState where
  processAlive : Bool
  messageId : Nat
  pending : List Nat
  diagnostics : List (String × List JSDiagItem)
  openDocuments : List String
  sent : List Notif
deriving Repr, DecidableEq

/-- JS `Map.set`: overwrite the value at a key or append a new binding. -/
def mapSet (m : List (String × List JSDiagItem)) (k : String) (v : List JSDiagItem) :
    List (String × List JSDiagItem) :=
  if m.any (fun kv => kv.1 == k) then
    m.map (fun kv => if kv.1 == k then (k, v) else kv)
  else m ++ [(k, v)]

/-- JS `Map.get`: first binding for the key. -/
def mapGet (m : List (String × List JSDiagItem)) (k : String) : Option (List JSDiagItem) :=
  (m.find? (fun kv => kv.1 == k)).map (·.2)

/-- JS `Map.delete` / `Set.delete`: drop the binding. -/
def mapDelete (m : List (String × List JSDiagItem)) (k : String) :
    List (String × List JSDiagItem) :=
  m.filter (fun kv => !(kv.1 == k))

/-- JS `Set.add`. -/
def setAdd (s : List String) (x : String) : List String :=
  if s.contains x then s else s ++ [x]

/-- `sendNotification`/`sendMessage` (lines 222–304): throws
(`none`) when `state.process` is null. -/
def sendNotif (st : ClientState) (n : Notif) : Option ClientState :=
  if st.processAlive then some { st with sent := st.sent ++ [n] } else none

/-- `openDocument` (lines 444–459): emits `didOpen` (version 1) and adds
the URI to the open set — with **no** already-open check. -/
def openDocument (st : ClientState) (uri : String) : Option ClientState :=
  (sendNotif st (.didOpen uri)).map fun st1 =>
    { st1 with openDocuments := setAdd st1.openDocuments uri }

/-- `closeDocument` (lines 461–471): emits `didClose`, clears the URI's
diagnostics and removes it from the open set. -/
def closeDocument (st : ClientState) (uri : String) : Option ClientState :=
  (sendNotif st (.didClose uri)).map fun st1 =>
    { st1 with
      diagnostics := mapDelete st1.diagnostics uri
      openDocuments := st1.openDocuments.filter (fun x => !(x == uri)) }

/-- `isDocumentOpen` (lines 473–475). -/
def isDocumentOpen (st : ClientState) (uri : String) : Bool :=
  st.openDocuments.contains uri

/-! ## C4 — request timeouts (`sendRequest`, lines 241–295) -/

/-- The timeout installed by `sendRequest` for **every** outgoing request:
the literal `30000` ms at line 270 — it does not depend on the language. -/
def sendRequestTimeoutMs : Nat := 30000

/-- Modelled from the spec: the per-language capability profile of §4.5
(`serverCharacteristics.ts` is not under `src/`; only its caller
`lspOperations.ts` is). Operation timeout: 60000 ms for rust, 30000 ms
for typescript/javascript, pyright/pylsp, go and the default row. -/
def profileOperationTimeout (lang : String) : Nat :=
  if lang == "rust" then 60000 else 30000

/-- Firing of the `setTimeout` callback in `sendRequest` (lines 255–270):
deletes the pending entry for the id and rejects with the timeout error. -/
def timeoutFire (st : ClientState) (id : Nat) (method : String) : ClientState × String :=
  ({ st with pending := st.pending.filter (fun x => !(x == id)) },
   "Request '" ++ method ++ "' timed out after 30 seconds")

/-! ## C5 — incoming message handling (`handleMessage`, lines 190–220) -/

/-- Incoming messages, projected to the shapes `handleMessage` branches
on: a response (has `id` and `result` or `error`) or a notification;
`publishDiagnostics` params are carried inline. -/
inductive IncomingMsg where
  | response (id : Nat) (isError : Bool)
  | publishDiagnostics (uri : String) (diags : List JSDiagItem)
  | otherNotification (method : String)
deriving Repr, DecidableEq

/-- `handleMessage`: responses are routed and their pending entry removed;
a `publishDiagnostics` notification stores
`params.diagnostics.filter((d) => d && d.range)` for the URI and emits the
same filtered list on the `"diagnostics"` event (second component: the
diagnostics delivered to waiters, `none` when no such event fires). -/
def handleMessage (st : ClientState) (m : IncomingMsg) :
    ClientState × Option (List JSDiagItem) :=
  match m with
  | .response id _ =>
    ({ st with pending := st.pending.filter (fun x => !(x == id)) }, none)
  | .publishDiagnostics uri diags =>
    let valid := diags.filter diagHasRange
    ({ st with diagnostics := mapSet st.diagnostics uri valid }, some valid)
  | .otherNotification _ => (st, none)

/-! ## C2 — transient-document lifecycles

The operation proper is abstracted by its outcome (`Except`): the claims
are about which exit paths close the document, not about the LSP payload. -/

/-- `handleGetSignatureHelp` (`src/unnamed/part_003` lines 149–177):
`openDocument`, then a `try` block (settling delay, the
`textDocument/signatureHelp` request, formatting) whose `finally` clause
closes the document on success **and** on failure. -/
def runSignatureHelp (st : ClientState) (uri : String)
    (outcome : Except String String) : Option (ClientState × Except String String) := do
  let st1 ← openDocument st uri
  -- try … finally: the close runs before either returning or rethrowing
  let st2 ← closeDocument st1 uri
  pure (st2, outcome)

/-- `findReferencesWithLSP` (`references.ts` lines 49–164): opens the
document (line 97), runs the request and renders the references; no
`closeDocument` call exists on any path. -/
def runFindReferences (st : ClientState) (uri : String)
    (outcome : Except String String) : Option (ClientState × Except String String) := do
  let st1 ← openDocument st uri
  pure (st1, outcome)

/-! ## C3 — the rename pipeline

`sendRequest` (lspClient.ts 241–295) turns a JSON-RPC error response into
a thrown `Error` whose message is the `formatError`-wrapped server
message; the thrown object has **no** `code` property.  `rename`
(lspClient.ts 742–770) catches method-not-found shapes and returns
`null`; `performRenameAtPosition` (lspOperations.ts, rename tool) turns a
`null` edit into `err("No changes from LSP rename operation")`. -/

/-- The `error` member of a JSON-RPC response. -/
structure RespError where
  code : Int
  message : String
deriving Repr, DecidableEq

/-- A thrown JS `Error`: a `message` and an optional `code` property
(absent on errors built with `new Error(...)`). -/
structure JSError where
  message : String
  code : Option Int
deriving Repr, DecidableEq

/-- Modelled from the spec: `formatError` of
`src/src/mcp/utils/errorHandler.ts` is not under `src/`; §7 says the tool
layer "wraps every error with context (operation, filePath, symbolName,
language, details) before formatting", so the wrapped message carries the
original message text plus context. -/
def formatErrorMsg (msg : String) (opCtx : String) : String :=
  "Error: " ++ msg ++ " [operation: " ++ opCtx ++ "]"

/-- A workspace edit: per-URI lists of text edits (ranges with new text).
Only the shape needed to decide which files get modified. -/
structure WorkspaceEditE where
  changes : List (String × List (Nat × Nat × Nat × Nat × String))
deriving Repr

/-- `sendRequest`'s response handling for `textDocument/rename` (lines
272–291): an error response rejects with
`new Error(formatError(new Error(response.error.message), context))` —
the numeric code is dropped and no `code` property is set. -/
def sendRequestRename (resp : Except RespError (Option WorkspaceEditE)) :
    Except JSError (Option WorkspaceEditE) :=
  match resp with
  | .ok r => .ok r
  | .error e => .error { message := formatErrorMsg e.message "textDocument/rename", code := none }

/-- `rename` (lspClient.ts 742–770): `result ?? null` on success; a caught
error whose message includes `"Unhandled method"` or
`"Method not found"`, or whose `code` is `-32601`, yields `null`
("will use fallback"); other errors are rethrown. -/
def clientRename (r : Except JSError (Option WorkspaceEditE)) :
    Except JSError (Option WorkspaceEditE) :=
  match r with
  | .ok x => .ok x
  | .error e =>
    if strIncludes e.message "Unhandled method" || strIncludes e.message "Method not found"
        || (e.code == some (-32601)) then
      .ok none
    else .error e

/-- Files actually written by `applyWorkspaceEdit` (rename tool): only
URIs whose computed change list is nonempty are written back. -/
def appliedFiles (we : WorkspaceEditE) : List String :=
  (we.changes.filter (fun kv => !kv.2.isEmpty)).map (·.1)

/-- `performRenameAtPosition` from the `client.rename` call onward
(after a successful `prepareRename`): a `null` edit yields
`err("No changes from LSP rename operation")`; a thrown error matching
the method-not-found shapes yields
`err("LSP server doesn't support rename operation")`; any other thrown
error is rethrown into the surrounding catch, which yields
`err(error.message)`.  The first component lists the files modified. -/
def performRenameFromResponse (r : Except JSError (Option WorkspaceEditE)) :
    List String × Except String String :=
  match clientRename r with
  | .ok none => ([], .error "No changes from LSP rename operation")
  | .ok (some we) =>
    (appliedFiles we,
     .ok ("Successfully renamed symbol in " ++ Nat.repr (appliedFiles we).length ++ " file(s)"))
  | .error e =>
    if (e.code == some (-32601)) || strIncludes e.message "Unhandled method"
        || strIncludes e.message "Method not found" then
      ([], .error "LSP server doesn't support rename operation")
    else ([], .error e.message)

/-- The whole pipeline from the server's `textDocument/rename` response to
the tool outcome. -/
def renamePipeline (resp : Except RespError (Option WorkspaceEditE)) :
    List String × Except String String :=
  performRenameFromResponse (sendRequestRename resp)

/-! ## Symbol index (`packages/code-indexer/src/symbolIndex.ts`) -/

structure PositionE where
  line : Nat
  character : Nat
deriving Repr, DecidableEq

/-- An LSP range; the source field `end` is a Lean keyword and is named
`endP` here. -/
structure RangeE where
  start : PositionE
  endP : PositionE
deriving Repr, DecidableEq

/-- A `SymbolEntry` (symbolIndex.ts 33–43); recursive through `children`. -/
inductive SymbolEntryE where
  | mk (name : String) (kind : Nat) (uri : String) (range : RangeE)
       (containerName : Option String) (isExternal : Option Bool)
       (sourceLibrary : Option String) (children : List SymbolEntryE)
deriving Repr

def SymbolEntryE.name : SymbolEntryE → String
  | .mk n _ _ _ _ _ _ _ => n

def SymbolEntryE.kind : SymbolEntryE → Nat
  | .mk _ k _ _ _ _ _ _ => k

def SymbolEntryE.uri : SymbolEntryE → String
  | .mk _ _ u _ _ _ _ _ => u

def SymbolEntryE.range : SymbolEntryE → RangeE
  | .mk _ _ _ r _ _ _ _ => r

def SymbolEntryE.containerName : SymbolEntryE → Option String
  | .mk _ _ _ _ c _ _ _ => c

def SymbolEntryE.isExternal : SymbolEntryE → Option Bool
  | .mk _ _ _ _ _ e _ _ => e

def SymbolEntryE.sourceLibrary : SymbolEntryE → Option String
  | .mk _ _ _ _ _ _ s _ => s

def SymbolEntryE.children : SymbolEntryE → List SymbolEntryE
  | .mk _ _ _ _ _ _ _ cs => cs

/-- A `FileSymbols` record (uri, lastModified, symbols). -/
structure FileSymbolsE where
  uri : String
  lastModified : Nat
  symbols : List SymbolEntryE

/-- The index maps (symbolIndex.ts 69–82), as association lists. -/
structure SymbolIndexStateE where
  rootPath : String
  fileIndex : List (String × FileSymbolsE)
  symbolIndex : List (String × List SymbolEntryE)
  kindIndex : List (Nat × List SymbolEntryE)
  containerIndex : List (String × List SymbolEntryE)
  fileWatchers : List String

/-- `pathToFileURL(resolve(rootPath, filePath)).toString()` for a
relative path. -/
def fileUriOf (root filePath : String) : String :=
  "file://" ++ root ++ "/" ++ filePath

/-- One step of `clearFromMap` (symbolIndex.ts 206–215): filter the
entry list by `e.location.uri !== uri`; `none` stands for `map.delete`
when the filtered list is empty. -/
def clearEntry {κ : Type} (uri : String) (kv : κ × List SymbolEntryE) :
    Option (κ × List SymbolEntryE) :=
  let filtered := kv.2.filter (fun e => !(e.uri == uri))
  if filtered.isEmpty then none else some (kv.1, filtered)

/-- The body of `clearFromMap` applied to a whole map. -/
def clearMapEntries {κ : Type} (m : List (κ × List SymbolEntryE)) (uri : String) :
    List (κ × List SymbolEntryE) :=
  m.filterMap (clearEntry uri)

/-- `clearFileFromIndices` (symbolIndex.ts 205–220). -/
def clearFileFromIndices (st : SymbolIndexStateE) (uri : String) : SymbolIndexStateE :=
  { st with
    symbolIndex := clearMapEntries st.symbolIndex uri
    kindIndex := clearMapEntries st.kindIndex uri
    containerIndex := clearMapEntries st.containerIndex uri }

/-- `removeFileFromIndex` (symbolIndex.ts 494–514): clear the three
derived indices, delete the file-index entry, stop and drop the watcher. -/
def removeFileFromIndex (st : SymbolIndexStateE) (filePath : String) : SymbolIndexStateE :=
  let uri := fileUriOf st.rootPath filePath
  let st1 := clearFileFromIndices st uri
  { st1 with
    fileIndex := st1.fileIndex.filter (fun kv => !(kv.1 == uri))
    fileWatchers := st1.fileWatchers.filter (fun p => !(p == st.rootPath ++ "/" ++ filePath)) }

/-- Whether any entry with the given location URI survives in the name,
kind or container index, or the file index still has the URI as a key. -/
def indexHasUri (st : SymbolIndexStateE) (uri : String) : Bool :=
  st.symbolIndex.any (fun kv => kv.2.any (fun e => e.uri == uri)) ||
  st.kindIndex.any (fun kv => kv.2.any (fun e => e.uri == uri)) ||
  st.containerIndex.any (fun kv => kv.2.any (fun e => e.uri == uri)) ||
  st.fileIndex.any (fun kv => kv.1 == uri)

/-- `positionInRange` (symbolIndex.ts 519–539), translated clause by
clause; both boundary comparisons are strict, so boundary positions pass. -/
def positionInRange (position : PositionE) (range : RangeE) : Bool :=
  if position.line < range.start.line || position.line > range.endP.line then false
  else if position.line == range.start.line && position.character < range.start.character then
    false
  else if position.line == range.endP.line && position.character > range.endP.character then
    false
  else true

/-- `getFileSymbols` (symbolIndex.ts 646–653). -/
def getFileSymbols (st : SymbolIndexStateE) (filePath : String) : List SymbolEntryE :=
  match st.fileIndex.find? (fun kv => kv.1 == fileUriOf st.rootPath filePath) with
  | some kv => kv.2.symbols
  | none => []

/-- The inner `findSymbol` of `getSymbolAtPosition` (symbolIndex.ts
665–678): first containing entry wins; children are preferred. -/
def findSymbolList (pos : PositionE) : List SymbolEntryE → Option SymbolEntryE
  | [] => none
  | .mk n k u r c ext lib children :: rest =>
    if positionInRange pos r then
      match findSymbolList pos children with
      | some child => some child
      | none => some (.mk n k u r c ext lib children)
    else findSymbolList pos rest

/-- `getSymbolAtPosition` (symbolIndex.ts 658–681). -/
def getSymbolAtPosition (st : SymbolIndexStateE) (filePath : String) (pos : PositionE) :
    Option SymbolEntryE :=
  findSymbolList pos (getFileSymbols st filePath)

/-! ## C7 — `querySymbols` (symbolIndex.ts 544–641) -/

/-- `query.kind` may be a single kind or an array (`Array.isArray`). -/
inductive KindArg where
  | one (k : Nat)
  | many (ks : List Nat)
deriving Repr, DecidableEq

/-- A `SymbolQuery` (symbolIndex.ts 51–60); absent fields are `none`. -/
structure SymbolQueryE where
  name : Option String := none
  kind : Option KindArg := none
  file : Option String := none
  containerName : Option String := none
  includeChildren : Option Bool := none
  includeExternal : Option Bool := none
  onlyExternal : Option Bool := none
  sourceLibrary : Option String := none
deriving Repr, DecidableEq

/-- JS truthiness of an optional string (the empty string is falsy). -/
def truthyStr : Option String → Bool
  | some s => !(s == "")
  | none => false

/-- JS truthiness of an optional boolean. -/
def truthyBool : Option Bool → Bool
  | some b => b
  | none => false

/-- JS truthiness of `query.kind` (`SymbolKind` 0 would be falsy; an
array is always truthy). -/
def truthyKind : Option KindArg → Bool
  | none => false
  | some (.one k) => !(k == 0)
  | some (.many _) => true

/-- `Array.isArray(query.kind) ? query.kind : [query.kind]`. -/
def kindArgList : Option KindArg → List Nat
  | some (.one k) => [k]
  | some (.many ks) => ks
  | none => []

def lookupEntries {κ : Type} [BEq κ] (m : List (κ × List SymbolEntryE)) (k : κ) :
    List SymbolEntryE :=
  match m.find? (fun kv => kv.1 == k) with
  | some kv => kv.2
  | none => []

/-- The `addSymbols` walk of the all-symbols branch (lines 575–585):
push each symbol, and descend into children when
`query.includeChildren !== false`. -/
def collectAll (descend : Bool) : List SymbolEntryE → List SymbolEntryE
  | [] => []
  | .mk n k u r c ext lib children :: rest =>
    .mk n k u r c ext lib children ::
      ((if descend then collectAll descend children else []) ++ collectAll descend rest)

/-- The `addChildren` walk of the `includeChildren` step (lines 626–634):
push each child and recurse into its children. -/
def collectDesc : List SymbolEntryE → List SymbolEntryE
  | [] => []
  | .mk n k u r c ext lib children :: rest =>
    .mk n k u r c ext lib children :: (collectDesc children ++ collectDesc rest)

/-- The initial selection of `querySymbols` (lines 548–586): exact name
match with case-insensitive substring fallback; else kind lookup; else
container lookup; else all symbols. -/
def qsSelect (st : SymbolIndexStateE) (q : SymbolQueryE) : List SymbolEntryE :=
  if truthyStr q.name then
    let nameResults := lookupEntries st.symbolIndex (q.name.getD "")
    if nameResults.isEmpty then
      (st.symbolIndex.filter
        (fun kv => strIncludes kv.1.toLower (q.name.getD "").toLower)).flatMap (·.2)
    else nameResults
  else if truthyKind q.kind then
    (kindArgList q.kind).flatMap (fun k => lookupEntries st.kindIndex k)
  else if truthyStr q.containerName then
    lookupEntries st.containerIndex (q.containerName.getD "")
  else
    st.fileIndex.flatMap
      (fun kv => collectAll (!(q.includeChildren == some false)) kv.2.symbols)

/-- Lines 589–594: `query.file` filter. -/
def qsFileFilter (st : SymbolIndexStateE) (q : SymbolQueryE) (l : List SymbolEntryE) :
    List SymbolEntryE :=
  if truthyStr q.file then
    l.filter (fun s => s.uri == fileUriOf st.rootPath (q.file.getD ""))
  else l

/-- Lines 596–598: container filter when both name and container given. -/
def qsContainerFilter (q : SymbolQueryE) (l : List SymbolEntryE) : List SymbolEntryE :=
  if truthyStr q.containerName && truthyStr q.name then
    l.filter (fun s => s.containerName == q.containerName)
  else l

/-- Lines 600–604: kind filter when both name and kind given. -/
def qsKindFilter (q : SymbolQueryE) (l : List SymbolEntryE) : List SymbolEntryE :=
  if truthyStr q.name && truthyKind q.kind then
    l.filter (fun s => (kindArgList q.kind).contains s.kind)
  else l

/-- Lines 606–614: the external-library filters.  `onlyExternal` keeps
entries with `isExternal === true`; otherwise entries are removed **only**
when `includeExternal === false`; with `includeExternal` unspecified both
internal and external symbols remain. -/
def qsExternalFilter (q : SymbolQueryE) (l : List SymbolEntryE) : List SymbolEntryE :=
  if truthyBool q.onlyExternal then
    l.filter (fun s => s.isExternal == some true)
  else if q.includeExternal == some false then
    l.filter (fun s => !(s.isExternal == some true))
  else l

/-- Lines 617–619: `sourceLibrary` filter. -/
def qsLibFilter (q : SymbolQueryE) (l : List SymbolEntryE) : List SymbolEntryE :=
  if truthyStr q.sourceLibrary then
    l.filter (fun s => s.sourceLibrary == q.sourceLibrary)
  else l

/-- Lines 622–638: append all descendants when `includeChildren` is
truthy. -/
def qsChildrenStep (q : SymbolQueryE) (l : List SymbolEntryE) : List SymbolEntryE :=
  if truthyBool q.includeChildren then
    l ++ l.flatMap (fun s => collectDesc s.children)
  else l

/-- `querySymbols` (symbolIndex.ts 544–641): the staged filters applied
in source order. -/
def querySymbols (st : SymbolIndexStateE) (q : SymbolQueryE) : List SymbolEntryE :=
  qsChildrenStep q (qsLibFilter q (qsExternalFilter q
    (qsKindFilter q (qsContainerFilter q (qsFileFilter st q (qsSelect st q))))))

/-! ## Concrete instances used by the individual claims -/

/-- A fresh client whose server process is running. -/
def freshClient : ClientState :=
  { processAlive := true, messageId := 0, pending := [], diagnostics := [],
    openDocuments := [], sent := [] }

/-- A client used to exercise the find-references lifecycle. -/
def refsClient : ClientState := freshClient

/-- A client used to exercise the signature-help lifecycle. -/
def sigClient : ClientState :=
  { freshClient with diagnostics := [("file:///w/s.ts", [])] }

/-- A diagnostic whose range is present but **empty**
(`start = end = (0,0)`). -/
def emptyRangeDiag : JSDiagItem :=
  some { range := some (0, 0, 0, 0), severity := some 1, message := "boom" }

/-- An external-library symbol entry (as produced by
`markSymbolsAsExternal`). -/
def extFooSym : SymbolEntryE :=
  .mk "foo" 12 "file:///r/node_modules/lib/index.d.ts" ⟨⟨0, 0⟩, ⟨0, 3⟩⟩
    none (some true) (some "lib") []

/-- An internal (project) symbol entry. -/
def intBarSym : SymbolEntryE :=
  .mk "bar" 12 "file:///r/src/a.ts" ⟨⟨2, 0⟩, ⟨4, 1⟩⟩ none none none []

/-- An index holding one external symbol, for the default-query claim. -/
def extIndexState : SymbolIndexStateE :=
  { rootPath := "/r", fileIndex := [], symbolIndex := [("foo", [extFooSym])],
    kindIndex := [(12, [extFooSym])], containerIndex := [], fileWatchers := [] }

/-- An index holding one internal and one external symbol under the same
name. -/
def mixedIndexState : SymbolIndexStateE :=
  { rootPath := "/r", fileIndex := [],
    symbolIndex := [("bar", [intBarSym, extFooSym])],
    kindIndex := [(12, [intBarSym, extFooSym])], containerIndex := [],
    fileWatchers := [] }

/-- A query with `includeExternal` explicitly `false`. -/
def mixedQuery : SymbolQueryE :=
  { name := some "bar", includeExternal := some false }

/-- A symbol whose range is multi-line, for the boundary-lookup claim. -/
def boundarySym : SymbolEntryE :=
  .mk "greet" 12 (fileUriOf "/r" "a.ts") ⟨⟨1, 4⟩, ⟨3, 1⟩⟩ none none none []

/-- A one-file index whose file record holds `boundarySym`. -/
def boundaryIndexState : SymbolIndexStateE :=
  { rootPath := "/r",
    fileIndex := [(fileUriOf "/r" "a.ts",
      { uri := fileUriOf "/r" "a.ts", lastModified := 0, symbols := [boundarySym] })],
    symbolIndex := [("greet", [boundarySym])], kindIndex := [(12, [boundarySym])],
    containerIndex := [], fileWatchers := [] }

/-- A client with one open document and stored diagnostics, used for the
close-idempotence claim. -/
def closeClient : ClientState :=
  { freshClient with
    openDocuments := ["file:///w/a.ts"]
    diagnostics := [("file:///w/a.ts", [emptyRangeDiag])] }

/-- A client that already has `file:///w/b.ts` open. -/
def reopenClient : ClientState :=
  { freshClient with openDocuments := ["file:///w/b.ts"] }

/-- The client state after a signature-help run on `sigClient`:
opened then closed, diagnostics for the URI cleared. -/
def sigClosedState : ClientState :=
  { sigClient with
    diagnostics := []
    openDocuments := []
    sent := [.didOpen "file:///w/s.ts", .didClose "file:///w/s.ts"] }

/-- `start ≤ end` for a range, the spec's well-formedness order on
positions. -/
def rangeWf (r : RangeE) : Bool :=
  (r.start.line < r.endP.line) ||
    (r.start.line == r.endP.line && r.start.character ≤ r.endP.character)

/-! # Helper lemmas -/

theorem any_filter_not {α : Type} (p : α → Bool) (l : List α) :
    (l.filter (fun x => !(p x))).any p = false := by
  induction l with
  | nil => rfl
  | cons a t ih => cases hp : p a <;> simp [List.filter_cons, hp, ih]

theorem contains_filter_self {α : Type} [BEq α] [LawfulBEq α] (l : List α) (a : α) :
    (l.filter (fun x => !(x == a))).contains a = false := by
  induction l with
  | nil => rfl
  | cons b t ih =>
    cases hb : b == a
    · have hba : (a == b) = false := by
        cases hab : a == b
        · rfl
        · exact absurd (by simp [eq_of_beq hab]) (by simp [hb] : ¬(b == a) = true)
      simp [List.filter_cons, hb, List.contains_cons, hba, ih]
    · simp [List.filter_cons, hb, ih]

theorem filter_self_idem {α : Type} (p : α → Bool) (l : List α) :
    (l.filter p).filter p = l.filter p := by
  induction l with
  | nil => rfl
  | cons a t ih => cases hp : p a <;> simp [List.filter_cons, hp, ih]

theorem listContainsSub_append_right (xs ys sub : List Char)
    (h : listContainsSub ys sub = true) :
    listContainsSub (xs ++ ys) sub = true := by
  induction xs with
  | nil => simpa using h
  | cons a t ih =>
    by_cases hs : listStartsWith (a :: (t ++ ys)) sub = true
    · simp [listContainsSub, hs]
    · simp only [List.cons_append, listContainsSub]
      simp [hs, ih]

theorem strIncludes_append_right (x y sub : String)
    (h : strIncludes y sub = true) : strIncludes (x ++ y) sub = true := by
  unfold strIncludes at h ⊢
  have hx : (x ++ y).toList = x.toList ++ y.toList := by
    simp [String.toList]
  rw [hx]
  exact listContainsSub_append_right _ _ _ h

/-! # Claims -/

theorem mapGet_map_overwrite (m : List (String × List JSDiagItem)) (k : String)
    (v : List JSDiagItem) (h : m.any (fun kv => kv.1 == k) = true) :
    mapGet (m.map (fun kv => if kv.1 == k then (k, v) else kv)) k = some v := by
  induction m with
  | nil => simp at h
  | cons kv t ih =>
    by_cases hk : (kv.1 == k) = true
    · unfold mapGet
      rw [List.map_cons]
      have hif : (if kv.1 == k then (k, v) else kv) = (k, v) := by simp [hk]
      rw [hif, List.find?_cons]
      simp
    · have hk2 : (kv.1 == k) = false := by
        cases hkk : kv.1 == k
        · rfl
        · exact absurd hkk hk
      have ht : t.any (fun kv => kv.1 == k) = true := by
        rw [List.any_cons, hk2] at h
        simpa using h
      have hrec := ih ht
      unfold mapGet at hrec ⊢
      rw [List.map_cons]
      have hif : (if kv.1 == k then (k, v) else kv) = kv := by simp [hk2]
      rw [hif, List.find?_cons]
      simp only [hk2]
      exact hrec

theorem mapGet_append_new (m : List (String × List JSDiagItem)) (k : String)
    (v : List JSDiagItem) (h : m.any (fun kv => kv.1 == k) = false) :
    mapGet (m ++ [(k, v)]) k = some v := by
  induction m with
  | nil =>
    unfold mapGet
    rw [List.nil_append, List.find?_cons]
    simp
  | cons kv t ih =>
    have hk : (kv.1 == k) = false := by
      cases hkv : kv.1 == k
      · rfl
      · rw [List.any_cons, hkv] at h; simp at h
    have ht : t.any (fun kv => kv.1 == k) = false := by
      rw [List.any_cons, hk] at h; simpa using h
    have hrec := ih ht
    unfold mapGet at hrec ⊢
    rw [List.cons_append, List.find?_cons]
    simp only [hk]
    exact hrec

theorem mapGet_mapSet (m : List (String × List JSDiagItem)) (k : String)
    (v : List JSDiagItem) : mapGet (mapSet m k v) k = some v := by
  unfold mapSet
  by_cases h : (m.any fun kv => kv.1 == k) = true
  · rw [if_pos h]
    exact mapGet_map_overwrite m k v h
  · have h2 : (m.any fun kv => kv.1 == k) = false := by
      cases hh : m.any fun kv => kv.1 == k
      · rfl
      · exact absurd hh h
    rw [if_neg h]
    exact mapGet_append_new m k v h2

/-- C1: the claim says the framed transport round-trips every JSON-RPC
message, including ones whose JSON serialization contains non-ASCII
characters.  The writer's `Content-Length` counts UTF-8 **bytes**
(`Buffer.byteLength`), but `processBuffer` compares that count against
`state.buffer.length`, which counts UTF-16 **characters** of the decoded
string.  For `{"jsonrpc":"2.0","method":"é"}` (30 characters, 31 bytes)
the reader consumes the header, then waits forever for a 31st character
that never arrives: nothing is delivered. -/
theorem c1_nonascii_roundtrip_stalls :
    (roundTrip nonAsciiContent).1 = [] ∧
    (roundTrip nonAsciiContent).2 =
      { buffer := nonAsciiContent, contentLength := some 31 } ∧
    utf8ByteLength nonAsciiContent = 31 ∧ nonAsciiContent.length = 30 := by
  refine ⟨?_, ?_, ?_, ?_⟩ <;> decide

/-- C3: when the server answers `textDocument/rename` with JSON-RPC error
`-32601` (standard message `"Method not found"`), `sendRequest` rejects
with a plain `Error` (no `code` property), `rename` catches the message
pattern and returns `null`, and the tool reports
`"No changes from LSP rename operation"` — not an error containing
`"doesn't support rename"`; no file is modified. -/
theorem c3_rename_32601_result :
    renamePipeline (.error { code := -32601, message := "Method not found" })
      = ([], .error "No changes from LSP rename operation") ∧
    strIncludes "No changes from LSP rename operation" "doesn't support rename" = false := by
  exact ⟨rfl, by decide⟩

/-- C4 counterexample: the claim says the per-request timeout is
overridable per language from the capability profile; `sendRequest`
hard-codes `30000` ms for every request, while the profile gives rust
60000 ms. -/
theorem c4_timeout_not_per_language :
    sendRequestTimeoutMs ≠ profileOperationTimeout "rust" ∧
    profileOperationTimeout "rust" = 60000 ∧ sendRequestTimeoutMs = 30000 := by
  refine ⟨?_, ?_, ?_⟩ <;> decide

/-- C5 counterexample: the claim says a diagnostic with an **empty**
range never appears in the stored snapshot nor in the delivered event.
`handleMessage` filters with `(d) => d && d.range`, which only drops
nulls and missing ranges: a diagnostic whose range is present but empty
(`(0,0)–(0,0)`) is stored and delivered. -/
theorem c5_empty_range_retained :
    (handleMessage freshClient
        (.publishDiagnostics "file:///a.ts" [emptyRangeDiag])).1.diagnostics
      = [("file:///a.ts", [emptyRangeDiag])] ∧
    (handleMessage freshClient
        (.publishDiagnostics "file:///a.ts" [emptyRangeDiag])).2
      = some [emptyRangeDiag] := by
  exact ⟨rfl, rfl⟩

/-- C5 (amended): on `publishDiagnostics`, exactly the diagnostics that
are non-null **and carry a range field** are stored for the URI and
delivered to waiters; a null or range-less diagnostic is dropped, while a
present-but-empty range is retained. -/
theorem c5_only_missing_ranges_dropped (st : ClientState) (uri : String)
    (ds : List JSDiagItem) :
    mapGet (handleMessage st (.publishDiagnostics uri ds)).1.diagnostics uri
      = some (ds.filter diagHasRange) ∧
    (handleMessage st (.publishDiagnostics uri ds)).2 = some (ds.filter diagHasRange) ∧
    (∀ d ∈ ds.filter diagHasRange, diagHasRange d = true) ∧
    (∀ d ∈ ds, diagHasRange d = true → d ∈ ds.filter diagHasRange) := by
  refine ⟨?_, rfl, ?_, ?_⟩
  · exact mapGet_mapSet _ _ _
  · intro d hd
    exact (List.mem_filter.mp hd).2
  · intro d hd hv
    exact List.mem_filter.mpr ⟨hd, hv⟩

/-- C5 witness: the amended theorem applied to a concrete notification
containing a null entry and an empty-range diagnostic. -/
theorem c5_only_missing_ranges_dropped_witness :
    diagHasRange emptyRangeDiag = true :=
  (c5_only_missing_ranges_dropped freshClient "file:///b.ts"
    [none, emptyRangeDiag]).2.2.1 emptyRangeDiag (by decide)

/-- C6 counterexample: the claim says `open` fails on an already-open
document and never emits `didOpen` twice without an intervening close.
Opening the same URI twice in a row succeeds and emits two `didOpen`
notifications. -/
theorem c6_double_open_succeeds :
    (openDocument freshClient "file:///w/a.ts").bind
        (fun st1 => openDocument st1 "file:///w/a.ts")
      = some { processAlive := true, messageId := 0, pending := [], diagnostics := [],
               openDocuments := ["file:///w/a.ts"],
               sent := [.didOpen "file:///w/a.ts", .didOpen "file:///w/a.ts"] } := by
  decide

/-- C6 (amended): `openDocument` performs no already-open check: on an
already-open URI it succeeds, emits another `didOpen`, and leaves the
open-document set unchanged. -/
theorem c6_reopen_emits_second_didopen (st : ClientState) (uri : String)
    (halive : st.processAlive = true) (hopen : isDocumentOpen st uri = true) :
    openDocument st uri = some { st with sent := st.sent ++ [.didOpen uri] } := by
  have hc : st.openDocuments.contains uri = true := hopen
  have hm : uri ∈ st.openDocuments := by simpa using hc
  simp [openDocument, sendNotif, halive, setAdd, hc, hm]

/-- C6 witness: reopening the already-open document of `reopenClient`. -/
theorem c6_reopen_witness :
    openDocument reopenClient "file:///w/b.ts"
      = some { reopenClient with sent := reopenClient.sent ++ [.didOpen "file:///w/b.ts"] } :=
  c6_reopen_emits_second_didopen reopenClient "file:///w/b.ts" rfl rfl

/-- C10: `closeDocument` succeeds for every URI (open or not) while the
server process runs, and closing twice leaves the open-document set and
the diagnostics map identical to closing once. -/
theorem c10_close_total_idempotent (st : ClientState) (uri : String)
    (halive : st.processAlive = true) :
    (closeDocument st uri).isSome = true ∧
    ((closeDocument st uri).bind (fun st1 => closeDocument st1 uri)).map
        (fun st2 => (st2.openDocuments, st2.diagnostics))
      = (closeDocument st uri).map (fun st1 => (st1.openDocuments, st1.diagnostics)) := by
  have h1 : closeDocument st uri = some
      { st with
        sent := st.sent ++ [.didClose uri]
        diagnostics := mapDelete st.diagnostics uri
        openDocuments := st.openDocuments.filter (fun x => !(x == uri)) } := by
    simp [closeDocument, sendNotif, halive]
  have h2 : closeDocument
      { st with
        sent := st.sent ++ [.didClose uri]
        diagnostics := mapDelete st.diagnostics uri
        openDocuments := st.openDocuments.filter (fun x => !(x == uri)) } uri = some
      { st with
        sent := (st.sent ++ [.didClose uri]) ++ [.didClose uri]
        diagnostics := mapDelete (mapDelete st.diagnostics uri) uri
        openDocuments := (st.openDocuments.filter (fun x => !(x == uri))).filter
          (fun x => !(x == uri)) } := by
    simp [closeDocument, sendNotif, halive]
  refine ⟨by rw [h1]; rfl, ?_⟩
  have hb : ((closeDocument st uri).bind fun st1 => closeDocument st1 uri) = some
      { st with
        sent := (st.sent ++ [.didClose uri]) ++ [.didClose uri]
        diagnostics := mapDelete (mapDelete st.diagnostics uri) uri
        openDocuments := (st.openDocuments.filter (fun x => !(x == uri))).filter
          (fun x => !(x == uri)) } := by
    rw [h1]
    exact h2
  rw [hb, h1]
  show some ((st.openDocuments.filter (fun x => !(x == uri))).filter (fun x => !(x == uri)),
      mapDelete (mapDelete st.diagnostics uri) uri)
    = some (st.openDocuments.filter (fun x => !(x == uri)), mapDelete st.diagnostics uri)
  unfold mapDelete
  rw [filter_self_idem, filter_self_idem]

/-- C10 witness: closing an open document of a running client, twice. -/
theorem c10_close_witness :
    (closeDocument closeClient "file:///w/a.ts").isSome = true ∧
    ((closeDocument closeClient "file:///w/a.ts").bind
        (fun st1 => closeDocument st1 "file:///w/a.ts")).map
        (fun st2 => (st2.openDocuments, st2.diagnostics))
      = (closeDocument closeClient "file:///w/a.ts").map
        (fun st1 => (st1.openDocuments, st1.diagnostics)) :=
  c10_close_total_idempotent closeClient "file:///w/a.ts" rfl

/-- C2 counterexample: the claim says every transiently opened document
is closed on every exit path.  `findReferencesWithLSP` opens the document
(references.ts line 97) and contains no `closeDocument` call: the
document is still open after a successful run and after a failed one. -/
theorem c2_find_references_leaves_open :
    ((runFindReferences refsClient "file:///w/r.ts" (.ok "Found 1 reference")).map
        (fun p => isDocumentOpen p.1 "file:///w/r.ts")) = some true ∧
    ((runFindReferences refsClient "file:///w/r.ts" (.error "boom")).map
        (fun p => isDocumentOpen p.1 "file:///w/r.ts")) = some true := by
  exact ⟨rfl, rfl⟩

/-- C2 (amended): `handleGetSignatureHelp` closes its transiently opened
document on **every** exit path (its `finally` clause), for success and
failure outcomes alike; but `findReferencesWithLSP` and
`withLSPOperation` never close, and the rename tool closes only on
success, so the universal claim fails. -/
theorem c2_signature_help_closes (st : ClientState) (uri : String)
    (outcome : Except String String) (st2 : ClientState) (r : Except String String)
    (h : runSignatureHelp st uri outcome = some (st2, r)) :
    isDocumentOpen st2 uri = false := by
  unfold runSignatureHelp at h
  rcases Option.bind_eq_some.mp h with ⟨st1, hopen, h2⟩
  rcases Option.bind_eq_some.mp h2 with ⟨stc, hclose, hpure⟩
  have hp : stc = st2 := by
    have := Option.some_inj.mp hpure
    exact (Prod.ext_iff.mp this).1
  unfold closeDocument sendNotif at hclose
  cases hal : st1.processAlive
  · rw [hal] at hclose
    simp at hclose
  · rw [hal] at hclose
    simp only [if_true, Option.map_some] at hclose
    have hrec := Option.some_inj.mp hclose
    have hopenEq : st2.openDocuments = st1.openDocuments.filter (fun x => !(x == uri)) := by
      rw [← hp, ← hrec]
    unfold isDocumentOpen
    rw [hopenEq]
    exact contains_filter_self _ _

/-- C2 witness: the amended theorem at a concrete failing operation. -/
theorem c2_signature_help_closes_witness :
    isDocumentOpen sigClosedState "file:///w/s.ts" = false :=
  c2_signature_help_closes sigClient "file:///w/s.ts" (.error "timed out")
    sigClosedState (.error "timed out") rfl

/-- C4 (amended): the per-request timeout is the fixed 30000 ms of
`sendRequest`; when it fires, the pending entry for the request id is
deleted from the correlation map and the caller fails with a timeout
error. -/
theorem c4_timeout_deletes_pending :
    ∀ (st : ClientState) (id : Nat) (m : String),
      (timeoutFire st id m).1.pending.contains id = false ∧
      strIncludes (timeoutFire st id m).2 "timed out after 30 seconds" = true ∧
      sendRequestTimeoutMs = 30000 := by
  intro st id m
  refine ⟨contains_filter_self _ _, ?_, rfl⟩
  exact strIncludes_append_right _ _ _ (by decide)

/-- C7 counterexample: the claim says a query without `includeExternal`
removes external entries by default.  A plain name query against an
index holding an external symbol returns that symbol: only
`includeExternal === false` filters. -/
theorem c7_default_returns_external :
    querySymbols extIndexState { name := some "foo" } = [extFooSym] ∧
    extFooSym.isExternal = some true := by
  exact ⟨rfl, rfl⟩

/-- C7 (amended): entries carrying the external flag are removed exactly
when `includeExternal` is explicitly `false` (and `onlyExternal` is not
set); an omitted `includeExternal` leaves external entries in the
results.  (`includeChildren` must not be truthy: the child-expansion
step runs after the external filter and does not re-filter.) -/
theorem c7_external_removed_only_when_false (st : SymbolIndexStateE) (q : SymbolQueryE)
    (h1 : q.includeExternal = some false) (h2 : truthyBool q.onlyExternal = false)
    (h3 : truthyBool q.includeChildren = false) :
    ∀ e ∈ querySymbols st q, (e.isExternal == some true) = false := by
  intro e he
  unfold querySymbols qsChildrenStep at he
  rw [if_neg (by simp [h3])] at he
  unfold qsLibFilter at he
  have he2 : e ∈ qsExternalFilter q
      (qsKindFilter q (qsContainerFilter q (qsFileFilter st q (qsSelect st q)))) := by
    by_cases hl : truthyStr q.sourceLibrary = true
    · rw [if_pos hl] at he
      exact (List.mem_filter.mp he).1
    · rw [if_neg hl] at he
      exact he
  unfold qsExternalFilter at he2
  rw [if_neg (by simp [h2]), if_pos (by rw [h1]; rfl)] at he2
  simpa using (List.mem_filter.mp he2).2

/-- C7 witness: the amended theorem at the mixed index with
`includeExternal := false`. -/
theorem c7_external_removed_witness :
    (intBarSym.isExternal == some true) = false :=
  c7_external_removed_only_when_false mixedIndexState mixedQuery rfl rfl rfl intBarSym
    (by
      have h : querySymbols mixedIndexState mixedQuery = [intBarSym] := rfl
      rw [h]
      exact List.mem_singleton.mpr rfl)

theorem clearMapEntries_no_uri {κ : Type} (m : List (κ × List SymbolEntryE)) (uri : String) :
    (clearMapEntries m uri).any (fun kv => kv.2.any (fun e => e.uri == uri)) = false := by
  induction m with
  | nil => rfl
  | cons kv t ih =>
    unfold clearMapEntries at ih ⊢
    cases hck : clearEntry uri kv with
    | none =>
      rw [List.filterMap_cons_none hck]
      exact ih
    | some b =>
      rw [List.filterMap_cons_some hck, List.any_cons]
      have hb : b.2 = kv.2.filter (fun e => !(e.uri == uri)) := by
        unfold clearEntry at hck
        by_cases hf : (kv.2.filter (fun e => !(e.uri == uri))).isEmpty = true
        · rw [if_pos hf] at hck
          cases hck
        · rw [if_neg hf] at hck
          cases hck
          rfl
      have hany := any_filter_not (fun e => e.uri == uri) kv.2
      rw [hb, hany, ih]
      rfl

/-- C8: after `removeFileFromIndex`, no symbol entry whose location URI
equals the file's URI remains in the name, kind or container index, and
the file index no longer contains the URI as a key. -/
theorem c8_remove_file_purges_uri (st : SymbolIndexStateE) (p : String) :
    indexHasUri (removeFileFromIndex st p) (fileUriOf st.rootPath p) = false := by
  unfold removeFileFromIndex clearFileFromIndices indexHasUri
  rw [clearMapEntries_no_uri, clearMapEntries_no_uri, clearMapEntries_no_uri,
    any_filter_not (fun kv => kv.1 == fileUriOf st.rootPath p) st.fileIndex]
  rfl

theorem positionInRange_boundary_start (r : RangeE) (hwf : rangeWf r = true) :
    positionInRange r.start r = true := by
  simp only [rangeWf, Bool.or_eq_true, Bool.and_eq_true, decide_eq_true_eq,
    beq_iff_eq] at hwf
  unfold positionInRange
  rw [if_neg, if_neg, if_neg]
  · simp only [Bool.and_eq_true, beq_iff_eq, decide_eq_true_eq, not_and]
    intro hl
    omega
  · simp only [Bool.and_eq_true, beq_iff_eq, decide_eq_true_eq, not_and]
    intro _
    omega
  · simp only [Bool.or_eq_true, decide_eq_true_eq, not_or]
    omega

theorem positionInRange_boundary_end (r : RangeE) (hwf : rangeWf r = true) :
    positionInRange r.endP r = true := by
  simp only [rangeWf, Bool.or_eq_true, Bool.and_eq_true, decide_eq_true_eq,
    beq_iff_eq] at hwf
  unfold positionInRange
  rw [if_neg, if_neg, if_neg]
  · simp only [Bool.and_eq_true, beq_iff_eq, decide_eq_true_eq, not_and]
    intro _
    omega
  · simp only [Bool.and_eq_true, beq_iff_eq, decide_eq_true_eq, not_and]
    intro hl
    omega
  · simp only [Bool.or_eq_true, decide_eq_true_eq, not_or]
    omega

theorem findSymbolList_isSome_of_mem (pos : PositionE) (l : List SymbolEntryE)
    (s : SymbolEntryE) (hs : s ∈ l) (hin : positionInRange pos s.range = true) :
    (findSymbolList pos l).isSome = true := by
  induction l with
  | nil => cases hs
  | cons e rest ih =>
    cases e with
    | mk n k u r c ext lib children =>
      by_cases hp : positionInRange pos r = true
      · unfold findSymbolList
        rw [if_pos hp]
        cases hch : findSymbolList pos children <;> simp
      · unfold findSymbolList
        rw [if_neg hp]
        rcases List.mem_cons.mp hs with he | htail
        · rw [he] at hin
          exact absurd hin hp
        · exact ih htail

/-- C9: `positionInRange` is inclusive at both boundaries — a position
equal to a symbol range's start or end lies inside — so
`getSymbolAtPosition` at either boundary of a well-formed
(`start ≤ end`) symbol range in the file returns a symbol, not `null`. -/
theorem c9_boundary_positions_inside (st : SymbolIndexStateE) (p : String)
    (s : SymbolEntryE) (hmem : s ∈ getFileSymbols st p) (hwf : rangeWf s.range = true) :
    positionInRange s.range.start s.range = true ∧
    positionInRange s.range.endP s.range = true ∧
    (getSymbolAtPosition st p s.range.start).isSome = true ∧
    (getSymbolAtPosition st p s.range.endP).isSome = true :=
  ⟨positionInRange_boundary_start _ hwf, positionInRange_boundary_end _ hwf,
   findSymbolList_isSome_of_mem _ _ _ hmem (positionInRange_boundary_start _ hwf),
   findSymbolList_isSome_of_mem _ _ _ hmem (positionInRange_boundary_end _ hwf)⟩

/-- C9 witness: both boundaries of `boundarySym`'s multi-line range hit
the symbol in the concrete one-file index. -/
theorem c9_boundary_witness :
    positionInRange boundarySym.range.start boundarySym.range = true ∧
    positionInRange boundarySym.range.endP boundarySym.range = true ∧
    (getSymbolAtPosition boundaryIndexState "a.ts" boundarySym.range.start).isSome = true ∧
    (getSymbolAtPosition boundaryIndexState "a.ts" boundarySym.range.endP).isSome = true :=
  c9_boundary_positions_inside boundaryIndexState "a.ts" boundarySym
    (by
      have h : getFileSymbols boundaryIndexState "a.ts" = [boundarySym] := rfl
      rw [h]
      exact List.mem_singleton.mpr rfl)
    (by decide)

end Lsmcp
